import Mathlib

/-!
Verification of the autocoder orchestration core (src/autocoder/main.py and
src/autocoder/config.py) via a shallow embedding.

Python strings are modelled as Lean `String` (sequences of characters, as in
Python, where slicing and length count code points).  Python string helpers
that the source uses (`str.lower`, `str.strip`, `str.split`, slicing) are
embedded as structurally recursive functions on the character list so that
all definitions are executable and kernel-reducible.

The Claude SDK client is modelled as, per step, either a raised exception
(`StepBehavior.fault`) or the finite stream of messages that
`receive_response()` yields for that step's `query`.  Subprocess results for
`git rev-parse` and `gh repo view` are modelled by small outcome types.
Raised Python exceptions are modelled explicitly: `run_cycle_body` returns a
`BodyResult` which is either a normal return value or an escaped exception,
and `run_cycle` applies the `except Exception` handler at the cycle boundary.
-/

set_option maxRecDepth 20000

/-- Substring search on character lists: true iff `pat` occurs inside `s`.
Mirrors the Python `pat in s` operator. -/
def subSearch (pat : List Char) : List Char → Bool
  | [] => pat.isEmpty
  | s@(_ :: rest) => pat.isPrefixOf s || subSearch pat rest

/-- The Python membership test `pat in s` on strings. -/
def containsSub (s pat : String) : Bool := subSearch pat.data s.data

/-- The Python `str.lower()` (ASCII case folding suffices for every pattern
the source compares against). -/
def lowerS (s : String) : String := String.mk (s.data.map Char.toLower)

/-- Whitespace characters removed by Python `str.strip()`:
space, tab, newline, carriage return, vertical tab, form feed. -/
def isPyStripSpace (c : Char) : Bool :=
  c = ' ' || c = '\t' || c = '\n' || c = '\r' || c = Char.ofNat 11 || c = Char.ofNat 12

/-- The Python `str.strip()`: drop whitespace from both ends. -/
def pyStrip (s : String) : String :=
  String.mk (((s.data.dropWhile isPyStripSpace).reverse.dropWhile isPyStripSpace).reverse)

/-- Helper for `splitNl`: split a character list at every newline,
keeping empty pieces, as Python `str.split` with an explicit separator does. -/
def splitNlAux : List Char → List (List Char)
  | [] => [[]]
  | c :: rest =>
    if c = '\n' then [] :: splitNlAux rest
    else
      match splitNlAux rest with
      | h :: t => (c :: h) :: t
      | [] => [[c]]

/-- The Python `text.split` on a newline separator (main.py line 419). -/
def splitNl (s : String) : List String := (splitNlAux s.data).map String.mk

/-- The log-truncation idiom of main.py lines 460 and 553:
`text` capped to its first `n` characters with an ellipsis appended when it
is longer than `n`, and returned unchanged otherwise. -/
def truncTo (n : Nat) (s : String) : String :=
  if n < s.length then s.take n ++ "..." else s

/-! ## Response extraction (main.py lines 408-423 and 487-499) -/

/-- Line filter of main.py line 421: a line qualifies as the selected task
when it contains the in-progress marker or a task label. -/
def lineHasTaskMarker (line : String) : Bool :=
  containsSub line "[~]" || containsSub (lowerS line) "task:"

/-- Gate of main.py line 418: a reply block is scanned for a task only when
it mentions marking or selecting. -/
def blockMentionsTask (task_text : String) : Bool :=
  containsSub (lowerS task_text) "marking" || containsSub (lowerS task_text) "selected"

/-- Step 1 task extraction applied to one text block (main.py lines 414-423):
when the block mentions marking/selecting, the first line carrying a task
marker (stripped) replaces the previously selected task; otherwise the
previous value is kept. -/
def extractTaskFromBlock (selected_task : Option String) (task_text : String) : Option String :=
  if blockMentionsTask task_text then
    match (splitNl task_text).find? lineHasTaskMarker with
    | some line => some (pyStrip line)
    | none => selected_task
  else selected_task

/-- Quote characters accepted by the commit-message pattern. -/
def isQuoteChar (c : Char) : Bool := c = '"' || c = Char.ofNat 39

/-- Matcher for the part of the pattern after the literal `-m`:
optional whitespace, an opening quote, one or more non-quote characters
(captured), and a closing quote.  Greedy repetition followed by a mandatory
distinct character needs no backtracking, so maximal munch is exact. -/
def commitTailMatch (cs : List Char) : Option (List Char) :=
  match cs.dropWhile isPyStripSpace with
  | [] => none
  | q :: rest =>
    if isQuoteChar q then
      let grp := rest.takeWhile (fun d => !isQuoteChar d)
      if grp.isEmpty then none
      else
        match rest.drop grp.length with
        | [] => none
        | _ :: _ => some grp
    else none

/-- Lazy gap search for the pattern fragment between `git commit` and `-m`:
try `-m` plus tail at the current position first; on failure extend the gap
by one character, which must not be a newline because an unflagged dot does
not match newlines. -/
def commitGapSearch : List Char → Option (List Char)
  | [] => none
  | c :: rest =>
    match
      (if c = '-' then
        match rest with
        | m :: rest2 => if m = 'm' then commitTailMatch rest2 else none
        | [] => none
      else none) with
    | some grp => some grp
    | none => if c = '\n' then none else commitGapSearch rest

/-- Leftmost search for the full commit-message pattern of main.py line 497,
scanning start positions left to right. -/
def commitSearch : List Char → Option (List Char)
  | [] => none
  | cs@(_ :: rest) =>
    match (if ("git commit").data.isPrefixOf cs then commitGapSearch (cs.drop 10) else none) with
    | some grp => some grp
    | none => commitSearch rest

/-- Step 3 commit-message extraction applied to one text block
(main.py lines 491-499): only blocks containing both `git commit` and `-m`
are searched; a successful regex match replaces the previous value. -/
def extractCommitMessage (commit_message : Option String) (text : String) : Option String :=
  if containsSub text "git commit" && containsSub text "-m" then
    match commitSearch text.data with
    | some grp => some (String.mk grp)
    | none => commit_message
  else commit_message

/-! ## Configuration model (config.py) -/

/-- A value held by the configuration mapping: every key except
`timeout_ms` holds a string, `timeout_ms` holds an integer. -/
inductive ConfigValue where
  | str (s : String)
  | int (n : Int)
deriving DecidableEq

/-- The configuration gathered by `AutocoderConfig._load_configuration`
(config.py lines 33-42); each entry is absent when the corresponding
environment variable is unset. -/
structure ConfigMap where
  base_url : Option String
  api_key : Option String
  model : Option String
  small_fast_model : Option String
  timeout_ms : Option Int
  bedrock_region : Option String
  vertex_project : Option String
deriving DecidableEq

/-- The key/value items of the configuration dictionary in its insertion
order, exactly as built at config.py lines 34-42. -/
def configItems (c : ConfigMap) : List (String × Option ConfigValue) :=
  [("base_url", c.base_url.map ConfigValue.str),
   ("api_key", c.api_key.map ConfigValue.str),
   ("model", c.model.map ConfigValue.str),
   ("small_fast_model", c.small_fast_model.map ConfigValue.str),
   ("timeout_ms", c.timeout_ms.map ConfigValue.int),
   ("bedrock_region", c.bedrock_region.map ConfigValue.str),
   ("vertex_project", c.vertex_project.map ConfigValue.str)]

/-- Secret-key test of config.py line 99: the key name contains `key` or
`token`, case-insensitively. -/
def isSecretKey (key : String) : Bool :=
  containsSub (lowerS key) "key" || containsSub (lowerS key) "token"

/-- Masking expression of config.py line 100 applied to a string value:
first 8 characters, a literal ellipsis, and the last 4 characters when the
value is longer than 12 characters, a fixed redaction token otherwise.
In the source this expression is only ever applied to string values: the
sole integer-valued key, `timeout_ms`, never satisfies the secret-key test
(`timeout_ms_not_secret` below). -/
def ConfigValue.mask : ConfigValue → ConfigValue
  | .str value => .str (if 12 < value.length then value.take 8 ++ "..." ++ value.takeRight 4 else "***")
  | .int n => .int n

/-- `AutocoderConfig.get_masked_config` (config.py lines 93-103): iterate the
configuration items, skip absent values, mask values under secret keys, and
pass every other value through unchanged. -/
def get_masked_config (c : ConfigMap) : List (String × ConfigValue) :=
  (configItems c).filterMap fun kv =>
    match kv.2 with
    | none => none
    | some value =>
      if isSecretKey kv.1 then some (kv.1, ConfigValue.mask value)
      else some (kv.1, value)

/-- The only integer-valued configuration key is never classified secret, so
the masking expression is never applied to an integer. -/
theorem timeout_ms_not_secret : isSecretKey "timeout_ms" = false := by decide

/-! ## SDK message stream model (main.py, run_cycle message loops) -/

/-- A content block of an assistant message: only `TextBlock`s are inspected
by the source; every other block kind is skipped. -/
inductive Block where
  | text (s : String)
  | otherBlock
deriving DecidableEq

/-- One message yielded by `client.receive_response()`: an
`AssistantMessage` with its content blocks, the terminal `ResultMessage`
carrying `is_error` and `result`, or any other message kind, which every
loop in `run_cycle` ignores. -/
inductive Message where
  | assistant (content : List Block)
  | result (isErr : Bool) (res : String)
  | otherMessage
deriving DecidableEq

/-- The client's behaviour for one step: either some awaited SDK call
raises an exception with the given description, or the step's
`receive_response()` yields the given message stream. -/
inductive StepBehavior where
  | fault (desc : String)
  | replies (msgs : List Message)
deriving DecidableEq

/-- Outcome of the `git rev-parse HEAD` subprocess call
(main.py lines 281-292). -/
inductive GitCmdOutcome where
  | success (stdout : String)
  | exitNonzero
  | raised (desc : String)
deriving DecidableEq

/-- Outcome of the `gh repo view --json url` subprocess call together with
the JSON decoding of its output (main.py lines 297-318).  `jsonUrl` is a
zero exit status whose output decodes to an object whose `url` field (the
empty string when missing) is the given value; `jsonError` is a zero exit
status with undecodable output; `raised` is a `TimeoutExpired` or
`FileNotFoundError` from the subprocess call itself. -/
inductive GhOutcome where
  | jsonUrl (url : String)
  | jsonError
  | exitNonzero
  | raised
deriving DecidableEq

/-- The version-control environment a cycle runs against. -/
structure GitEnv where
  revParse : GitCmdOutcome
  ghRepoView : GhOutcome
deriving DecidableEq

/-- Commit data assembled after a successful commit step
(main.py lines 311-315 and 321-325). -/
structure CommitInfo where
  hash : String
  short_hash : String
  url : Option String
deriving DecidableEq

/-- `Autocoder.get_latest_commit_info` (main.py lines 277-328).  A normal
return is the Python pair `(info, error)`.  The `GhOutcome.raised` branch is
the slip in the source: the inner handler tuple at line 317 mentions
`json.JSONDecodeError`, but `json` is a name local to the function, bound
only by the `import json` at line 306 inside the zero-exit branch; when the
`gh` subprocess call raises before that import runs, evaluating the handler
tuple raises `UnboundLocalError`, which neither the inner handler (not yet
established) nor the outer one (which matches only `TimeoutExpired` and
`FileNotFoundError`) catches, so it escapes this function. -/
def get_latest_commit_info (env : GitEnv) : Except String (Option CommitInfo × Option String) :=
  match env.revParse with
  | .raised e => .ok (none, some ("Git command failed: " ++ e))
  | .exitNonzero => .ok (none, some "No git repository or commits found")
  | .success out =>
    let commit_hash := pyStrip out
    let short_hash := commit_hash.take 7
    match env.ghRepoView with
    | .raised => .error "UnboundLocalError: cannot access local variable json"
    | .jsonUrl repo_url =>
      if repo_url ≠ "" then
        .ok (some ⟨commit_hash, short_hash, some (repo_url ++ "/commit/" ++ commit_hash)⟩, none)
      else
        .ok (some ⟨commit_hash, short_hash, none⟩, none)
    | .jsonError => .ok (some ⟨commit_hash, short_hash, none⟩, none)
    | .exitNonzero => .ok (some ⟨commit_hash, short_hash, none⟩, none)

/-! ## The cycle engine (Autocoder.run_cycle, main.py lines 351-587) -/

/-- Observable events of one cycle.  Invocation flags record which
`client.query` calls were issued; the log lists record the strings whose
truncation behaviour the spec describes; `fault` is the description recorded
by the boundary handler of main.py lines 580-587; `succeeded` is the value
`run_cycle` returns. -/
structure CycleTrace where
  step2_invoked : Bool
  step3_invoked : Bool
  step4_invoked : Bool
  task_selected : Bool
  selected_task : Option String
  step1_response_logs : List String
  step1_task_log : Option String
  step2_impl_logs : List String
  commit_message : Option String
  commit_info : Option CommitInfo
  commit_note : Option String
  step4_update_logs : List String
  fault : Option String
  succeeded : Bool
deriving DecidableEq

/-- The trace of a cycle in which nothing has happened yet. -/
def defaultTrace : CycleTrace :=
  { step2_invoked := false, step3_invoked := false, step4_invoked := false,
    task_selected := false, selected_task := none,
    step1_response_logs := [], step1_task_log := none, step2_impl_logs := [],
    commit_message := none, commit_info := none, commit_note := none,
    step4_update_logs := [], fault := none, succeeded := false }

/-- `is_error` of the first `ResultMessage` in a stream, if any; the
message loops of `run_cycle` all stop at this message. -/
def firstTerminal : List Message → Option Bool
  | [] => none
  | .result isErr _ :: _ => some isErr
  | .assistant _ :: rest => firstTerminal rest
  | .otherMessage :: rest => firstTerminal rest

/-- Result of the Step 1 message loop (main.py lines 406-438). -/
structure Step1Out where
  task_selected : Bool
  selected_task : Option String
  response_logs : List String
deriving DecidableEq

/-- Step 1 message loop: log every text block in full, run the task
extraction over it, and stop at the first `ResultMessage`, whose `is_error`
decides `task_selected`.  A stream with no `ResultMessage` leaves
`task_selected` false. -/
def processStep1 : List Message → Option String → Step1Out
  | [], sel => ⟨false, sel, []⟩
  | .assistant content :: rest, sel =>
    let logs := content.filterMap fun b =>
      match b with
      | .text s => some ("Step 1 Response: " ++ s)
      | .otherBlock => none
    let sel2 := content.foldl (fun a b =>
      match b with
      | .text s => extractTaskFromBlock a s
      | .otherBlock => a) sel
    let r := processStep1 rest sel2
    ⟨r.task_selected, r.selected_task, logs ++ r.response_logs⟩
  | .result isErr _ :: _, sel => ⟨!isErr, sel, []⟩
  | .otherMessage :: rest, sel => processStep1 rest sel

/-- Result of the Step 2 / Step 4 message loops: `outcome` is `some b` when
the first `ResultMessage` arrived with `is_error = !b`, and `none` when the
stream was exhausted without one (in which case the source falls through to
the next step). -/
structure StepOut where
  outcome : Option Bool
  logs : List String
deriving DecidableEq

/-- Step 2 message loop (main.py lines 454-474): every text block is logged
truncated to 200 characters; the loop stops at the first `ResultMessage`. -/
def processStep2 : List Message → StepOut
  | [] => ⟨none, []⟩
  | .assistant content :: rest =>
    let logs := content.filterMap fun b =>
      match b with
      | .text s => some (truncTo 200 s)
      | .otherBlock => none
    let r := processStep2 rest
    ⟨r.outcome, logs ++ r.logs⟩
  | .result isErr _ :: _ => ⟨some !isErr, []⟩
  | .otherMessage :: rest => processStep2 rest

/-- Result of the Step 3 message loop (main.py lines 486-501). -/
structure Step3Out where
  outcome : Option Bool
  commit_message : Option String
deriving DecidableEq

/-- Step 3 message loop: run the commit-message extraction over every text
block and stop at the first `ResultMessage`. -/
def processStep3 : List Message → Option String → Step3Out
  | [], cm => ⟨none, cm⟩
  | .assistant content :: rest, cm =>
    let cm2 := content.foldl (fun a b =>
      match b with
      | .text s => extractCommitMessage a s
      | .otherBlock => a) cm
    processStep3 rest cm2
  | .result isErr _ :: _, cm => ⟨some !isErr, cm⟩
  | .otherMessage :: rest, cm => processStep3 rest cm

/-- Step 4 message loop (main.py lines 545-568): a text block is logged,
truncated to 150 characters, only when it contains a completion marker; the
loop stops at the first `ResultMessage`. -/
def processStep4 : List Message → StepOut
  | [] => ⟨none, []⟩
  | .assistant content :: rest =>
    let logs := content.filterMap fun b =>
      match b with
      | .text s =>
        if containsSub s "[x]" || containsSub (lowerS s) "completed" then
          some (truncTo 150 s)
        else none
      | .otherBlock => none
    let r := processStep4 rest
    ⟨r.outcome, logs ++ r.logs⟩
  | .result isErr _ :: _ => ⟨some !isErr, []⟩
  | .otherMessage :: rest => processStep4 rest

/-- The client a cycle talks to: the behaviour of each of the four queries
issued by `run_cycle`, plus the version-control environment consulted after
a successful commit step. -/
structure Client where
  step1 : StepBehavior
  step2 : StepBehavior
  step3 : StepBehavior
  step4 : StepBehavior
  git : GitEnv
deriving DecidableEq

/-- Result of the `try` body of `run_cycle`: a normal `return` with a
boolean, or an exception escaping the body.  Either way the trace records
the events that happened up to that point. -/
inductive BodyResult where
  | normal (returned : Bool) (t : CycleTrace)
  | raised (e : String) (t : CycleTrace)
deriving DecidableEq

/-- The trace component of a body result. -/
def BodyResult.trace : BodyResult → CycleTrace
  | .normal _ t => t
  | .raised _ t => t

/-- Step 4 of `run_cycle` (main.py lines 535-578): on a query fault the
exception escapes to the boundary; a terminal reply with `is_error` returns
`False`; otherwise, including the fall-through when the stream carries no
terminal reply, the cycle reaches line 578 and returns `True`. -/
def doStep4 (cl : Client) (t3 : CycleTrace) : BodyResult :=
  match cl.step4 with
  | .fault d => .raised d { t3 with step4_invoked := true }
  | .replies msgs =>
    let s4 := processStep4 msgs
    let t4 := { t3 with step4_invoked := true, step4_update_logs := s4.logs }
    match s4.outcome with
    | some false => .normal false t4
    | _ => .normal true t4

/-- Step 3 of `run_cycle` (main.py lines 476-533): on a terminal error reply
return `False`; on a terminal success reply consult
`get_latest_commit_info`, whose escaped exception propagates, and proceed to
Step 4 whatever commit data came back; when the stream carries no terminal
reply the source falls through to Step 4 without consulting git. -/
def doStep3 (cl : Client) (t2 : CycleTrace) : BodyResult :=
  match cl.step3 with
  | .fault d => .raised d { t2 with step3_invoked := true }
  | .replies msgs =>
    let s3 := processStep3 msgs none
    let t3 := { t2 with step3_invoked := true, commit_message := s3.commit_message }
    match s3.outcome with
    | some false => .normal false t3
    | some true =>
      match get_latest_commit_info cl.git with
      | .error e => .raised e t3
      | .ok (info, note) => doStep4 cl { t3 with commit_info := info, commit_note := note }
    | none => doStep4 cl t3

/-- Step 2 of `run_cycle` (main.py lines 443-474): on a terminal error reply
return `False`; otherwise proceed to Step 3. -/
def doStep2 (cl : Client) (t1 : CycleTrace) : BodyResult :=
  match cl.step2 with
  | .fault d => .raised d { t1 with step2_invoked := true }
  | .replies msgs =>
    let s2 := processStep2 msgs
    let t2 := { t1 with step2_invoked := true, step2_impl_logs := s2.logs }
    match s2.outcome with
    | some false => .normal false t2
    | _ => doStep3 cl t2

/-- Trace state after the Step 1 message loop: the task-selection results
and response logs are recorded, including the `task` value logged at
main.py line 432. -/
def mkStep1Trace (s1 : Step1Out) : CycleTrace :=
  { defaultTrace with
    task_selected := s1.task_selected,
    selected_task := s1.selected_task,
    step1_response_logs := s1.response_logs,
    step1_task_log :=
      if s1.task_selected then
        some (s1.selected_task.getD "Task details in response above")
      else none }

/-- The `try` body of `run_cycle` (main.py lines 383-578): Step 1 selects a
task; when `task_selected` is false the body returns `False` at line 441,
otherwise Steps 2-4 run in order. -/
def run_cycle_body (cl : Client) : BodyResult :=
  match cl.step1 with
  | .fault d => .raised d defaultTrace
  | .replies msgs =>
    let s1 := processStep1 msgs none
    if s1.task_selected then doStep2 cl (mkStep1Trace s1)
    else .normal false (mkStep1Trace s1)

/-- `Autocoder.run_cycle` (main.py lines 351-587): run the `try` body; a
normal return becomes the cycle verdict, and any exception is caught by the
`except Exception` handler at line 580, which records its description and
returns `False`. -/
def run_cycle (cl : Client) : CycleTrace :=
  match run_cycle_body cl with
  | .normal b t => { t with succeeded := b }
  | .raised e t => { t with succeeded := false, fault := some e }

/-! ## The session runner (Autocoder.auto_run, main.py lines 589-665) -/

/-- The summary data logged at the end of `auto_run`
(main.py lines 661-665), together with the list of cycle indices for which
`run_cycle` was invoked.  `success_rate` is the percentage
`(completed_cycles / max_cycles) * 100`, modelled exactly in ℚ. -/
structure SessionSummary where
  cycles_requested : Nat
  cycles_completed : Nat
  cycles_attempted : List Nat
  success_rate : ℚ
deriving DecidableEq

/-- The cycle loop of `auto_run` (main.py lines 621-648) over the given
list of cycle indices: each successful cycle increments the completed
count; the first unsuccessful cycle stops the loop.  Returns the completed
count and the indices actually attempted. -/
def runLoop (world : Nat → Client) : List Nat → Nat × List Nat
  | [] => (0, [])
  | c :: rest =>
    if (run_cycle (world c)).succeeded then
      let r := runLoop world rest
      (r.1 + 1, c :: r.2)
    else (0, [c])

/-- `Autocoder.auto_run` (main.py lines 589-665): run up to `max_cycles`
cycles, stopping at the first unsuccessful one, then compute the session
summary.  The success-rate division at line 665 is unconditional in the
source; when `max_cycles = 0` it raises `ZeroDivisionError`, modelled as
the `Except.error` branch. -/
def auto_run (max_cycles : Nat) (world : Nat → Client) : Except String SessionSummary :=
  let r := runLoop world (List.range' 1 max_cycles)
  if max_cycles = 0 then .error "ZeroDivisionError: division by zero"
  else
    .ok { cycles_requested := max_cycles,
          cycles_completed := r.1,
          cycles_attempted := r.2,
          success_rate := ((r.1 : ℚ) / (max_cycles : ℚ)) * 100 }

/-! ## Analysis helpers -/

/-- A step behaviour counts as succeeded exactly when the client did not
fault and the first terminal reply of its stream signals no error; this is
the condition under which the source proceeds past the step. -/
def stepOk : StepBehavior → Bool
  | .fault _ => false
  | .replies msgs => (((firstTerminal msgs).map fun e => !e).getD false)

/-- Protocol well-formedness of one step behaviour (spec section 6: a reply
stream consists of intermediate messages followed by exactly one terminal
result message): unless the client faults, its stream contains a terminal
reply. -/
def wfStep : StepBehavior → Bool
  | .fault _ => true
  | .replies msgs => (firstTerminal msgs).isSome

theorem processStep1_task_selected (msgs : List Message) (sel : Option String) :
    (processStep1 msgs sel).task_selected = (((firstTerminal msgs).map fun e => !e).getD false) := by
  induction msgs generalizing sel with
  | nil => simp [processStep1, firstTerminal]
  | cons m rest ih =>
    cases m with
    | assistant content => simp [processStep1, firstTerminal, ih]
    | result isErr res => simp [processStep1, firstTerminal]
    | otherMessage => simp [processStep1, firstTerminal, ih]

theorem processStep2_outcome (msgs : List Message) :
    (processStep2 msgs).outcome = ((firstTerminal msgs).map fun e => !e) := by
  induction msgs with
  | nil => simp [processStep2, firstTerminal]
  | cons m rest ih =>
    cases m with
    | assistant content => simp [processStep2, firstTerminal, ih]
    | result isErr res => simp [processStep2, firstTerminal]
    | otherMessage => simp [processStep2, firstTerminal, ih]

theorem processStep3_outcome (msgs : List Message) (cm : Option String) :
    (processStep3 msgs cm).outcome = ((firstTerminal msgs).map fun e => !e) := by
  induction msgs generalizing cm with
  | nil => simp [processStep3, firstTerminal]
  | cons m rest ih =>
    cases m with
    | assistant content => simp [processStep3, firstTerminal, ih]
    | result isErr res => simp [processStep3, firstTerminal]
    | otherMessage => simp [processStep3, firstTerminal, ih]

theorem processStep4_outcome (msgs : List Message) :
    (processStep4 msgs).outcome = ((firstTerminal msgs).map fun e => !e) := by
  induction msgs with
  | nil => simp [processStep4, firstTerminal]
  | cons m rest ih =>
    cases m with
    | assistant content => simp [processStep4, firstTerminal, ih]
    | result isErr res => simp [processStep4, firstTerminal]
    | otherMessage => simp [processStep4, firstTerminal, ih]

theorem trace_normal (b : Bool) (t : CycleTrace) : (BodyResult.normal b t).trace = t := rfl

theorem trace_raised (e : String) (t : CycleTrace) : (BodyResult.raised e t).trace = t := rfl

theorem doStep4_preserve (cl : Client) (t : CycleTrace) :
    (doStep4 cl t).trace.step2_invoked = t.step2_invoked
    ∧ (doStep4 cl t).trace.step3_invoked = t.step3_invoked
    ∧ (doStep4 cl t).trace.task_selected = t.task_selected
    ∧ (doStep4 cl t).trace.step4_invoked = true
    ∧ (doStep4 cl t).trace.step2_impl_logs = t.step2_impl_logs
    ∧ (doStep4 cl t).trace.step1_response_logs = t.step1_response_logs := by
  rcases h : cl.step4 with d | msgs
  · simp [doStep4, h, trace_normal, trace_raised]
  · rcases o : (processStep4 msgs).outcome with _ | b
    · simp [doStep4, h, o, trace_normal, trace_raised]
    · cases b <;> simp [doStep4, h, o, trace_normal, trace_raised]

theorem doStep3_preserve (cl : Client) (t : CycleTrace) :
    (doStep3 cl t).trace.step2_invoked = t.step2_invoked
    ∧ (doStep3 cl t).trace.step3_invoked = true
    ∧ (doStep3 cl t).trace.task_selected = t.task_selected
    ∧ (doStep3 cl t).trace.step2_impl_logs = t.step2_impl_logs
    ∧ (doStep3 cl t).trace.step1_response_logs = t.step1_response_logs := by
  rcases h : cl.step3 with d | msgs
  · simp [doStep3, h, trace_normal, trace_raised]
  · rcases o : (processStep3 msgs none).outcome with _ | b
    · simp [doStep3, h, o, trace_normal, trace_raised, doStep4_preserve]
    · cases b
      · simp [doStep3, h, o, trace_normal, trace_raised]
      · rcases g : get_latest_commit_info cl.git with e | ⟨info, note⟩
        · simp [doStep3, h, o, g, trace_normal, trace_raised]
        · simp [doStep3, h, o, g, trace_normal, trace_raised, doStep4_preserve]

theorem doStep2_preserve (cl : Client) (t : CycleTrace) :
    (doStep2 cl t).trace.task_selected = t.task_selected
    ∧ (doStep2 cl t).trace.step1_response_logs = t.step1_response_logs := by
  rcases h : cl.step2 with d | msgs
  · simp [doStep2, h, trace_raised]
  · rcases o : (processStep2 msgs).outcome with _ | b
    · simp [doStep2, h, o, doStep3_preserve]
    · cases b <;> simp [doStep2, h, o, trace_normal, trace_raised, doStep3_preserve]

theorem doStep2_sets (cl : Client) (t : CycleTrace) :
    (doStep2 cl t).trace.step2_invoked = true := by
  rcases h : cl.step2 with d | msgs
  · simp [doStep2, h, trace_raised]
  · rcases o : (processStep2 msgs).outcome with _ | b
    · simp [doStep2, h, o, doStep3_preserve]
    · cases b <;> simp [doStep2, h, o, trace_normal, trace_raised, doStep3_preserve]

theorem doStep3_gate (cl : Client) (t : CycleTrace) (hwf : wfStep cl.step3 = true)
    (h4 : t.step4_invoked = false) :
    (doStep3 cl t).trace.step4_invoked = true → stepOk cl.step3 = true := by
  rcases h : cl.step3 with d | msgs
  · simp [doStep3, h, trace_raised, h4]
  · have ho := processStep3_outcome msgs none
    rcases ft : firstTerminal msgs with _ | e
    · simp [wfStep, h, ft] at hwf
    · cases e
      · intro _; simp [stepOk, h, ft]
      · rw [ft] at ho; simp at ho
        simp [doStep3, h, ho, trace_normal, h4]

theorem doStep2_gate4 (cl : Client) (t : CycleTrace) (hwf3 : wfStep cl.step3 = true)
    (h4 : t.step4_invoked = false) :
    (doStep2 cl t).trace.step4_invoked = true → stepOk cl.step3 = true := by
  rcases h : cl.step2 with d | msgs
  · simp [doStep2, h, trace_raised, h4]
  · rcases o : (processStep2 msgs).outcome with _ | b
    · simp only [doStep2, h, o]
      exact doStep3_gate cl _ hwf3 h4
    · cases b
      · simp [doStep2, h, o, trace_normal, h4]
      · simp only [doStep2, h, o]
        exact doStep3_gate cl _ hwf3 h4

theorem doStep2_gate3 (cl : Client) (t : CycleTrace) (hwf : wfStep cl.step2 = true)
    (h3 : t.step3_invoked = false) :
    (doStep2 cl t).trace.step3_invoked = true → stepOk cl.step2 = true := by
  rcases h : cl.step2 with d | msgs
  · simp [doStep2, h, trace_raised, h3]
  · have ho := processStep2_outcome msgs
    rcases ft : firstTerminal msgs with _ | e
    · simp [wfStep, h, ft] at hwf
    · cases e
      · intro _; simp [stepOk, h, ft]
      · rw [ft] at ho; simp at ho
        simp [doStep2, h, ho, trace_normal, h3]

theorem doStep2_43 (cl : Client) (t : CycleTrace)
    (h4 : t.step4_invoked = false) :
    (doStep2 cl t).trace.step4_invoked = true → (doStep2 cl t).trace.step3_invoked = true := by
  rcases h : cl.step2 with d | msgs
  · simp [doStep2, h, trace_raised, h4]
  · rcases o : (processStep2 msgs).outcome with _ | b
    · intro _; simp [doStep2, h, o, doStep3_preserve]
    · cases b
      · simp [doStep2, h, o, trace_normal, h4]
      · intro _; simp [doStep2, h, o, doStep3_preserve]

theorem run_cycle_fields (cl : Client) :
    (run_cycle cl).step2_invoked = (run_cycle_body cl).trace.step2_invoked
    ∧ (run_cycle cl).step3_invoked = (run_cycle_body cl).trace.step3_invoked
    ∧ (run_cycle cl).step4_invoked = (run_cycle_body cl).trace.step4_invoked
    ∧ (run_cycle cl).task_selected = (run_cycle_body cl).trace.task_selected
    ∧ (run_cycle cl).step2_impl_logs = (run_cycle_body cl).trace.step2_impl_logs
    ∧ (run_cycle cl).step4_update_logs = (run_cycle_body cl).trace.step4_update_logs
    ∧ (run_cycle cl).step1_response_logs = (run_cycle_body cl).trace.step1_response_logs := by
  rcases h : run_cycle_body cl with ⟨b, t⟩ | ⟨e, t⟩ <;>
    simp [run_cycle, h, trace_normal, trace_raised]

/-! ## Concrete clients used to instantiate the theorems -/

/-- A client whose four steps each answer with a single non-error terminal
reply, running in a directory that is not a git repository. -/
def okClient : Client :=
  { step1 := .replies [.result false "ok"],
    step2 := .replies [.result false "ok"],
    step3 := .replies [.result false "ok"],
    step4 := .replies [.result false "ok"],
    git := { revParse := .exitNonzero, ghRepoView := .exitNonzero } }

/-- A client whose Step 1 terminal reply signals an error, which the source
reads as "no tasks found or all completed" (main.py line 434). -/
def noTaskClient : Client :=
  { okClient with step1 := .replies [.result true "no uncompleted tasks"] }

/-- A client whose every query raises a fault with description `boom`. -/
def faultyClient : Client :=
  { step1 := .fault "boom", step2 := .fault "boom", step3 := .fault "boom",
    step4 := .fault "boom", git := { revParse := .exitNonzero, ghRepoView := .exitNonzero } }

/-! ## Claim C1 -/

/-- C1: for every client, `run_cycle` never lets an exception past its
boundary: whenever the `try` body of the cycle ends in a raised fault, the
cycle returns a result with `succeeded = false` and the fault's description
recorded, rather than propagating; in particular this holds for a client
whose very first query raises.  (`run_cycle` is a total function into
`CycleTrace`, so non-propagation holds by construction; this theorem pins
down the failed-result conversion performed by the handler of main.py
lines 580-587.) -/
theorem C1_cycle_boundary_catches_faults (cl : Client) :
    (∀ e t, run_cycle_body cl = BodyResult.raised e t →
      (run_cycle cl).succeeded = false ∧ (run_cycle cl).fault = some e)
    ∧ (∀ d, cl.step1 = StepBehavior.fault d →
      (run_cycle cl).succeeded = false ∧ (run_cycle cl).fault = some d) := by
  constructor
  · intro e t h
    simp [run_cycle, h]
  · intro d h
    have hb : run_cycle_body cl = BodyResult.raised d defaultTrace := by
      simp [run_cycle_body, h]
    simp [run_cycle, hb]

/-- Witness for C1: the always-faulting client yields a failed cycle with
the fault description recorded. -/
theorem C1_cycle_boundary_catches_faults_witness :
    (run_cycle faultyClient).succeeded = false
    ∧ (run_cycle faultyClient).fault = some "boom" :=
  (C1_cycle_boundary_catches_faults faultyClient).2 "boom" rfl

/-! ## Claim C2 -/

/-- C2: step ordering is strict.  For every client whose Step 2 and Step 3
reply streams are protocol well-formed (they carry a terminal reply unless
the query faults): Step 2 is only invoked when Step 1 selected a task;
Step 3 is only invoked after Step 2 was invoked and its terminal reply was
not an error; Step 4 is only invoked after Step 3 was invoked and its
terminal reply was not an error; and when Step 1 does not select a task the
cycle ends there, with no later step invoked and `succeeded = false`. -/
theorem C2_strict_step_ordering (cl : Client)
    (h2 : wfStep cl.step2 = true) (h3 : wfStep cl.step3 = true) :
    ((run_cycle cl).step2_invoked = true →
      (run_cycle cl).task_selected = true ∧ stepOk cl.step1 = true)
    ∧ ((run_cycle cl).step3_invoked = true →
      (run_cycle cl).step2_invoked = true ∧ stepOk cl.step2 = true)
    ∧ ((run_cycle cl).step4_invoked = true →
      (run_cycle cl).step3_invoked = true ∧ stepOk cl.step3 = true)
    ∧ (stepOk cl.step1 = false →
      (run_cycle cl).step2_invoked = false ∧ (run_cycle cl).step3_invoked = false
      ∧ (run_cycle cl).step4_invoked = false ∧ (run_cycle cl).succeeded = false) := by
  obtain ⟨f2, f3, f4, fts, _, _, _⟩ := run_cycle_fields cl
  rcases h1 : cl.step1 with d | msgs
  · have hb : run_cycle_body cl = BodyResult.raised d defaultTrace := by
      simp [run_cycle_body, h1]
    have e2 : (run_cycle cl).step2_invoked = false := by
      rw [f2, hb, trace_raised]; rfl
    have e3 : (run_cycle cl).step3_invoked = false := by
      rw [f3, hb, trace_raised]; rfl
    have e4 : (run_cycle cl).step4_invoked = false := by
      rw [f4, hb, trace_raised]; rfl
    have esucc : (run_cycle cl).succeeded = false := by
      simp [run_cycle, hb]
    refine ⟨?_, ?_, ?_, ?_⟩ <;> simp [e2, e3, e4, esucc]
  · have hts := processStep1_task_selected msgs none
    by_cases hsel : (processStep1 msgs none).task_selected = true
    · have hb : run_cycle_body cl = doStep2 cl (mkStep1Trace (processStep1 msgs none)) := by
        simp [run_cycle_body, h1, hsel]
      have hok1 : stepOk (StepBehavior.replies msgs) = true := by
        show (((firstTerminal msgs).map fun e => !e).getD false) = true
        rw [← hts]; exact hsel
      have hT4 : (mkStep1Trace (processStep1 msgs none)).step4_invoked = false := rfl
      have hT3 : (mkStep1Trace (processStep1 msgs none)).step3_invoked = false := rfl
      refine ⟨?_, ?_, ?_, ?_⟩
      · intro _
        refine ⟨?_, hok1⟩
        rw [fts, hb, (doStep2_preserve cl _).1]
        simpa [mkStep1Trace] using hsel
      · intro hinv3
        rw [f3, hb] at hinv3
        constructor
        · rw [f2, hb]; exact doStep2_sets cl _
        · exact doStep2_gate3 cl _ h2 hT3 hinv3
      · intro hinv4
        rw [f4, hb] at hinv4
        constructor
        · rw [f3, hb]; exact doStep2_43 cl _ hT4 hinv4
        · exact doStep2_gate4 cl _ h3 hT4 hinv4
      · intro hfalse
        exact absurd hfalse (by simp [hok1])
    · replace hsel : (processStep1 msgs none).task_selected = false := by
        simpa using hsel
      have hb : run_cycle_body cl = BodyResult.normal false (mkStep1Trace (processStep1 msgs none)) := by
        simp [run_cycle_body, h1, hsel]
      have e2 : (run_cycle cl).step2_invoked = false := by
        rw [f2, hb, trace_normal]; rfl
      have e3 : (run_cycle cl).step3_invoked = false := by
        rw [f3, hb, trace_normal]; rfl
      have e4 : (run_cycle cl).step4_invoked = false := by
        rw [f4, hb, trace_normal]; rfl
      have esucc : (run_cycle cl).succeeded = false := by
        simp [run_cycle, hb]
      refine ⟨?_, ?_, ?_, ?_⟩ <;> simp [e2, e3, e4, esucc]

/-- Witness for C2: the four-successful-steps client satisfies the
well-formedness hypotheses and the ordering conclusions. -/
theorem C2_strict_step_ordering_witness :
    (((run_cycle okClient).step2_invoked = true →
      (run_cycle okClient).task_selected = true ∧ stepOk okClient.step1 = true)
    ∧ ((run_cycle okClient).step3_invoked = true →
      (run_cycle okClient).step2_invoked = true ∧ stepOk okClient.step2 = true)
    ∧ ((run_cycle okClient).step4_invoked = true →
      (run_cycle okClient).step3_invoked = true ∧ stepOk okClient.step3 = true)
    ∧ (stepOk okClient.step1 = false →
      (run_cycle okClient).step2_invoked = false ∧ (run_cycle okClient).step3_invoked = false
      ∧ (run_cycle okClient).step4_invoked = false ∧ (run_cycle okClient).succeeded = false)) :=
  C2_strict_step_ordering okClient (by decide) (by decide)

/-! ## Claim C3 -/

/-- The cycle loop stops at the first unsuccessful cycle: over an index
list consisting of successful cycles, then the failing index, then
anything, it completes exactly the successful prefix and attempts exactly
the prefix plus the failing index. -/
theorem runLoop_firstFail (w : Nat → Client) :
    ∀ (l1 : List Nat) (k : Nat) (l2 : List Nat),
      (∀ i ∈ l1, (run_cycle (w i)).succeeded = true) →
      (run_cycle (w k)).succeeded = false →
      runLoop w (l1 ++ k :: l2) = (l1.length, l1 ++ [k]) := by
  intro l1
  induction l1 with
  | nil =>
    intro k l2 _ hk
    simp [runLoop, hk]
  | cons a rest ih =>
    intro k l2 hall hk
    have ha : (run_cycle (w a)).succeeded = true := hall a (by simp)
    have hrest := ih k l2 (fun i hi => hall i (by simp [hi])) hk
    simp [runLoop, ha, hrest]

/-- C3: for every world of per-cycle clients, if cycle `k` (with
`1 ≤ k ≤ maxCycles`) is the first cycle whose `run_cycle` verdict is
unsuccessful — which covers both a failed cycle and the no-task-available
outcome, since both make `run_cycle` return `False` — then `auto_run`
attempts exactly cycles `1..k`, attempts none of `k+1..maxCycles`, and
reports `k-1` completed cycles. -/
theorem C3_session_stops_at_first_failure (w : Nat → Client) (m k : Nat)
    (hk1 : 1 ≤ k) (hkm : k ≤ m)
    (hfail : (run_cycle (w k)).succeeded = false)
    (hok : ∀ i, 1 ≤ i → i < k → (run_cycle (w i)).succeeded = true) :
    ∃ s, auto_run m w = .ok s
      ∧ s.cycles_completed = k - 1
      ∧ s.cycles_attempted = List.range' 1 k
      ∧ ∀ j, k < j → j ∉ s.cycles_attempted := by
  have hm : ¬(m = 0) := by omega
  have hdecomp : List.range' 1 m = List.range' 1 (k - 1) ++ k :: List.range' (k + 1) (m - k) := by
    have h1 : List.range' 1 (k - 1) ++ List.range' (1 + (k - 1)) ((m - k) + 1)
        = List.range' 1 (((m - k) + 1) + (k - 1)) := List.range'_append_1 1 (k - 1) ((m - k) + 1)
    have e1 : 1 + (k - 1) = k := by omega
    have e2 : ((m - k) + 1) + (k - 1) = m := by omega
    rw [e1, e2] at h1
    rw [← h1, List.range'_succ]
  have hall : ∀ i ∈ List.range' 1 (k - 1), (run_cycle (w i)).succeeded = true := by
    intro i hi
    rw [List.mem_range'] at hi
    obtain ⟨j, hj, rfl⟩ := hi
    exact hok _ (by omega) (by omega)
  have hloop := runLoop_firstFail w (List.range' 1 (k - 1)) k (List.range' (k + 1) (m - k)) hall hfail
  have hattempt : List.range' 1 (k - 1) ++ [k] = List.range' 1 k := by
    have h1 : List.range' 1 (k - 1) ++ List.range' (1 + (k - 1)) 1
        = List.range' 1 (1 + (k - 1)) := List.range'_append_1 1 (k - 1) 1
    have e1 : 1 + (k - 1) = k := by omega
    rw [e1] at h1
    simpa using h1
  have hr : runLoop w (List.range' 1 m) = (k - 1, List.range' 1 k) := by
    rw [hdecomp, hloop, List.length_range', hattempt]
  refine ⟨⟨m, k - 1, List.range' 1 k, (((k - 1 : Nat) : ℚ) / (m : ℚ)) * 100⟩, ?_, rfl, rfl, ?_⟩
  · simp [auto_run, hm, hr]
  · intro j hj
    simp only [List.mem_range']
    rintro ⟨i, hi, rfl⟩
    omega

/-- Witness for C3: with five requested cycles and a world whose third
cycle finds no task, the session attempts cycles 1-3 and completes 2. -/
theorem C3_session_stops_at_first_failure_witness :
    ∃ s, auto_run 5 (fun i => if i ≤ 2 then okClient else noTaskClient) = .ok s
      ∧ s.cycles_completed = 3 - 1
      ∧ s.cycles_attempted = List.range' 1 3
      ∧ ∀ j, 3 < j → j ∉ s.cycles_attempted :=
  C3_session_stops_at_first_failure (fun i => if i ≤ 2 then okClient else noTaskClient) 5 3
    (by decide) (by decide) (by decide)
    (by
      intro i h1 h2
      have : i = 1 ∨ i = 2 := by omega
      rcases this with h | h <;> subst h <;> decide)

/-! ## Claim C4 -/

/-- Scenario B world (spec section 8): cycles 1 and 2 succeed and cycle 3
finds no uncompleted tasks. -/
def scenarioB : Nat → Client := fun i => if i ≤ 2 then okClient else noTaskClient

/-- C4: the session summary's success rate is always
`(cycles_completed / cycles_requested) * 100` with the originally requested
cycle count as denominator, also when the loop stopped early; in
particular, five requested cycles with the loop stopping after two
completed cycles report 40%. -/
theorem C4_success_rate_denominator :
    (∀ (m : Nat) (w : Nat → Client), 1 ≤ m →
      ∃ s, auto_run m w = .ok s
        ∧ s.cycles_requested = m
        ∧ s.success_rate = ((s.cycles_completed : ℚ) / (m : ℚ)) * 100)
    ∧ (∃ s, auto_run 5 scenarioB = .ok s
        ∧ s.cycles_completed = 2 ∧ s.success_rate = 40) := by
  constructor
  · intro m w hm
    have hm0 : ¬(m = 0) := by omega
    refine ⟨⟨m, (runLoop w (List.range' 1 m)).1, (runLoop w (List.range' 1 m)).2,
      (((runLoop w (List.range' 1 m)).1 : ℚ) / (m : ℚ)) * 100⟩, ?_, rfl, rfl⟩
    simp [auto_run, hm0]
  · have hr : runLoop scenarioB (List.range' 1 5) = (2, [1, 2, 3]) := by decide
    refine ⟨⟨5, 2, [1, 2, 3], ((2 : ℚ) / (5 : ℚ)) * 100⟩, ?_, rfl, ?_⟩
    · simp [auto_run, hr]
    · show ((2 : ℚ) / (5 : ℚ)) * 100 = 40
      norm_num

/-- Witness for C4: one requested cycle under the scenario-B world. -/
theorem C4_success_rate_denominator_witness :
    ∃ s, auto_run 1 scenarioB = .ok s
      ∧ s.cycles_requested = 1
      ∧ s.success_rate = ((s.cycles_completed : ℚ) / ((1 : Nat) : ℚ)) * 100 :=
  C4_success_rate_denominator.1 1 scenarioB (by decide)

/-! ## Claim C9 -/

/-- C9: under the precondition `max_cycles ≥ 1` the success-rate division
of the final session summary is well-defined and `auto_run` returns a
summary; the division is performed unconditionally at session end, so with
`max_cycles = 0` the source raises `ZeroDivisionError` — the precondition
is what makes the computation safe. -/
theorem C9_division_needs_precondition :
    (∀ (m : Nat) (w : Nat → Client), 1 ≤ m → ∃ s, auto_run m w = .ok s)
    ∧ (∀ w : Nat → Client, auto_run 0 w = .error "ZeroDivisionError: division by zero") := by
  constructor
  · intro m w hm
    have hm0 : ¬(m = 0) := by omega
    refine ⟨⟨m, (runLoop w (List.range' 1 m)).1, (runLoop w (List.range' 1 m)).2,
      (((runLoop w (List.range' 1 m)).1 : ℚ) / (m : ℚ)) * 100⟩, ?_⟩
    simp [auto_run, hm0]
  · intro w
    rfl

/-- Witness for C9: a single-cycle session produces a summary. -/
theorem C9_division_needs_precondition_witness :
    ∃ s, auto_run 1 scenarioB = .ok s :=
  C9_division_needs_precondition.1 1 scenarioB (by decide)

/-! ## Claim C5 -/

/-- A git environment in which `git rev-parse HEAD` succeeds but the `gh`
executable is missing (or its call times out), so the `gh` subprocess call
raises before `import json` has run. -/
def ghMissingEnv : GitEnv :=
  { revParse := .success "a1b2c3d4e5f6", ghRepoView := .raised }

/-- A client whose four steps succeed, running against `ghMissingEnv`. -/
def ghMissingClient : Client := { okClient with git := ghMissingEnv }

/-- C5 divergence witnessed at the failing input: after a successful commit
step, a missing `gh` tool (or a timeout of the `gh` call) does not get
converted to data — `get_latest_commit_info` raises `UnboundLocalError`
because its handler tuple names the not-yet-bound local `json`, the cycle
fails, and Step 4 is never invoked, contrary to the claim that every
commit-info lookup failure is swallowed and the cycle proceeds to Step 4. -/
theorem C5_commit_lookup_bug :
    get_latest_commit_info ghMissingEnv
      = .error "UnboundLocalError: cannot access local variable json"
    ∧ (run_cycle ghMissingClient).succeeded = false
    ∧ (run_cycle ghMissingClient).step4_invoked = false
    ∧ (run_cycle ghMissingClient).fault
      = some "UnboundLocalError: cannot access local variable json"
    ∧ stepOk ghMissingClient.step3 = true :=
  ⟨rfl, rfl, rfl, rfl, rfl⟩

/-! ## Claims C6 and C10 -/

/-- Full characterization of `get_masked_config`: entries appear in
dictionary order, absent values are omitted, the single secret-classified
key `api_key` is masked (first 8 and last 4 characters kept, middle
replaced, or a fixed redaction token when no longer than 12 characters),
and every other present entry appears verbatim. -/
theorem get_masked_config_eq (c : ConfigMap) :
    get_masked_config c =
      (match c.base_url with
        | none => [] | some v => [("base_url", ConfigValue.str v)]) ++
      (match c.api_key with
        | none => []
        | some s => [("api_key", ConfigValue.str
            (if 12 < s.length then s.take 8 ++ "..." ++ s.takeRight 4 else "***"))]) ++
      (match c.model with
        | none => [] | some v => [("model", ConfigValue.str v)]) ++
      (match c.small_fast_model with
        | none => [] | some v => [("small_fast_model", ConfigValue.str v)]) ++
      (match c.timeout_ms with
        | none => [] | some n => [("timeout_ms", ConfigValue.int n)]) ++
      (match c.bedrock_region with
        | none => [] | some v => [("bedrock_region", ConfigValue.str v)]) ++
      (match c.vertex_project with
        | none => [] | some v => [("vertex_project", ConfigValue.str v)]) := by
  rcases c with ⟨bu, ak, mo, sf, tm, br, vp⟩
  cases bu <;> cases ak <;> cases mo <;> cases sf <;> cases tm <;> cases br <;> cases vp <;> rfl

/-- C6: whenever the configuration holds a secret (the `api_key` entry,
the only key the secret test classifies), the masked view maps it to the
string keeping exactly its first 8 and last 4 characters with the rest
replaced by a fixed ellipsis when it is longer than 12 characters, and to
the fixed redaction token otherwise. -/
theorem C6_secret_masking (c : ConfigMap) (s : String) (h : c.api_key = some s) :
    ("api_key", ConfigValue.str
        (if 12 < s.length then s.take 8 ++ "..." ++ s.takeRight 4 else "***"))
      ∈ get_masked_config c := by
  rw [get_masked_config_eq, h]
  simp

/-- Witness for C6: a 23-character secret keeps its first 8 and last 4
characters around the fixed ellipsis. -/
theorem C6_secret_masking_witness :
    ("api_key", ConfigValue.str "sk-ant-a...PART")
      ∈ get_masked_config ⟨none, some "sk-ant-api03-SECRETPART", none, none, none, none, none⟩ := by
  have h := C6_secret_masking
    ⟨none, some "sk-ant-api03-SECRETPART", none, none, none, none, none⟩
    "sk-ant-api03-SECRETPART" rfl
  have e : (if 12 < ("sk-ant-api03-SECRETPART" : String).length then
      ("sk-ant-api03-SECRETPART" : String).take 8 ++ "..."
        ++ ("sk-ant-api03-SECRETPART" : String).takeRight 4
    else "***") = "sk-ant-a...PART" := by decide
  rw [e] at h
  exact h

/-- C10: the masked view masks only the entries whose key name contains
`key` or `token` (here exactly `api_key`); every other present entry
(`base_url`, `model`, `small_fast_model`, `timeout_ms`, `bedrock_region`,
`vertex_project`) appears verbatim and unmasked, and every absent entry is
omitted from the output entirely. -/
theorem C10_masking_scope (c : ConfigMap) :
    get_masked_config c =
      (match c.base_url with
        | none => [] | some v => [("base_url", ConfigValue.str v)]) ++
      (match c.api_key with
        | none => []
        | some s => [("api_key", ConfigValue.str
            (if 12 < s.length then s.take 8 ++ "..." ++ s.takeRight 4 else "***"))]) ++
      (match c.model with
        | none => [] | some v => [("model", ConfigValue.str v)]) ++
      (match c.small_fast_model with
        | none => [] | some v => [("small_fast_model", ConfigValue.str v)]) ++
      (match c.timeout_ms with
        | none => [] | some n => [("timeout_ms", ConfigValue.int n)]) ++
      (match c.bedrock_region with
        | none => [] | some v => [("bedrock_region", ConfigValue.str v)]) ++
      (match c.vertex_project with
        | none => [] | some v => [("vertex_project", ConfigValue.str v)]) :=
  get_masked_config_eq c

/-! ## Claim C7 -/

/-- C7: both extraction heuristics are total functions from arbitrary text
(and the previously extracted value) into an optional single match — by
construction they are defined on every string, mirroring that the source
extraction never raises — and on the empty string both yield no match. -/
theorem C7_extraction_total (prev : Option String) (text : String) :
    (extractTaskFromBlock prev text = none ∨ ∃ s, extractTaskFromBlock prev text = some s)
    ∧ (extractCommitMessage prev text = none ∨ ∃ s, extractCommitMessage prev text = some s)
    ∧ extractTaskFromBlock none "" = none
    ∧ extractCommitMessage none "" = none := by
  refine ⟨?_, ?_, by decide, by decide⟩
  · exact Option.eq_none_or_eq_some (extractTaskFromBlock prev text)
  · exact Option.eq_none_or_eq_some (extractCommitMessage prev text)

/-! ## Claim C8 -/

/-- Length and suffix behaviour of the truncation idiom: the result never
exceeds the cap plus the three ellipsis dots, and whenever it does exceed
the cap its tail past the cap is exactly the ellipsis. -/
theorem truncTo_spec (n : Nat) (s : String) :
    (truncTo n s).length ≤ n + 3 ∧ (n < (truncTo n s).length → (truncTo n s).drop n = "...") := by
  unfold truncTo
  by_cases h : n < s.length
  · rw [if_pos h]
    have hds : s.data.length = s.length := String.length_data s
    have h1 : (s.take n).length = n := by
      rw [← String.length_data (s.take n), String.data_take, List.length_take]
      exact Nat.min_eq_left (by omega)
    have hlen : (s.take n ++ "...").length = n + 3 := by
      rw [String.length_append, h1]; rfl
    refine ⟨by omega, fun _ => ?_⟩
    rw [String.drop_eq]
    have hd : (s.take n ++ "...").data = s.data.take n ++ "...".data := by
      rw [String.data_append, String.data_take]
    rw [hd, List.drop_left' (by rw [List.length_take]; exact Nat.min_eq_left (by omega))]
  · rw [if_neg h]
    exact ⟨by omega, fun hc => absurd hc h⟩

/-- Every string in a log list arose from the truncation idiom at cap `n`. -/
def AllTrunc (n : Nat) (L : List String) : Prop := ∀ s ∈ L, ∃ t, s = truncTo n t

theorem AllTrunc_nil (n : Nat) : AllTrunc n [] := by
  intro s hs
  exact absurd hs (List.not_mem_nil s)

theorem processStep2_logs_trunc (msgs : List Message) :
    AllTrunc 200 (processStep2 msgs).logs := by
  induction msgs with
  | nil => exact AllTrunc_nil 200
  | cons m rest ih =>
    cases m with
    | assistant content =>
      intro s hs
      simp only [processStep2, List.mem_append] at hs
      rcases hs with hs | hs
      · rw [List.mem_filterMap] at hs
        obtain ⟨b, _, hb⟩ := hs
        cases b with
        | text t =>
          simp only [Option.some.injEq] at hb
          exact ⟨t, hb.symm⟩
        | otherBlock => simp at hb
      · exact ih s hs
    | result isErr res => intro s hs; simp [processStep2] at hs
    | otherMessage => intro s hs; exact ih s (by simpa [processStep2] using hs)

theorem processStep4_logs_trunc (msgs : List Message) :
    AllTrunc 150 (processStep4 msgs).logs := by
  induction msgs with
  | nil => exact AllTrunc_nil 150
  | cons m rest ih =>
    cases m with
    | assistant content =>
      intro s hs
      simp only [processStep4, List.mem_append] at hs
      rcases hs with hs | hs
      · rw [List.mem_filterMap] at hs
        obtain ⟨b, _, hb⟩ := hs
        cases b with
        | text t =>
          rcases hc : containsSub t "[x]" || containsSub (lowerS t) "completed" with _ | _
          · simp [hc] at hb
          · simp [hc] at hb
            exact ⟨t, hb.symm⟩
        | otherBlock => simp at hb
      · exact ih s hs
    | result isErr res => intro s hs; simp [processStep4] at hs
    | otherMessage => intro s hs; exact ih s (by simpa [processStep4] using hs)

theorem doStep4_trunc (cl : Client) (t : CycleTrace)
    (h2 : AllTrunc 200 t.step2_impl_logs) (h4 : AllTrunc 150 t.step4_update_logs) :
    AllTrunc 200 (doStep4 cl t).trace.step2_impl_logs
    ∧ AllTrunc 150 (doStep4 cl t).trace.step4_update_logs := by
  rcases h : cl.step4 with d | msgs
  · refine ⟨?_, ?_⟩ <;> simp only [doStep4, h, trace_raised] <;> assumption
  · rcases o : (processStep4 msgs).outcome with _ | b
    · simp only [doStep4, h, o, trace_normal]
      exact ⟨h2, processStep4_logs_trunc msgs⟩
    · cases b <;> simp only [doStep4, h, o, trace_normal] <;>
        exact ⟨h2, processStep4_logs_trunc msgs⟩

theorem doStep3_trunc (cl : Client) (t : CycleTrace)
    (h2 : AllTrunc 200 t.step2_impl_logs) (h4 : AllTrunc 150 t.step4_update_logs) :
    AllTrunc 200 (doStep3 cl t).trace.step2_impl_logs
    ∧ AllTrunc 150 (doStep3 cl t).trace.step4_update_logs := by
  rcases h : cl.step3 with d | msgs
  · refine ⟨?_, ?_⟩ <;> simp only [doStep3, h, trace_raised] <;> assumption
  · rcases o : (processStep3 msgs none).outcome with _ | b
    · simp only [doStep3, h, o]
      exact doStep4_trunc cl _ h2 h4
    · cases b
      · simp only [doStep3, h, o, trace_normal]
        exact ⟨h2, h4⟩
      · rcases g : get_latest_commit_info cl.git with e | ⟨info, note⟩
        · simp only [doStep3, h, o, g, trace_raised]
          exact ⟨h2, h4⟩
        · simp only [doStep3, h, o, g]
          exact doStep4_trunc cl _ h2 h4

theorem doStep2_trunc (cl : Client) (t : CycleTrace)
    (h2 : AllTrunc 200 t.step2_impl_logs) (h4 : AllTrunc 150 t.step4_update_logs) :
    AllTrunc 200 (doStep2 cl t).trace.step2_impl_logs
    ∧ AllTrunc 150 (doStep2 cl t).trace.step4_update_logs := by
  rcases h : cl.step2 with d | msgs
  · refine ⟨?_, ?_⟩ <;> simp only [doStep2, h, trace_raised] <;> assumption
  · rcases o : (processStep2 msgs).outcome with _ | b
    · simp only [doStep2, h, o]
      exact doStep3_trunc cl _ (processStep2_logs_trunc msgs) h4
    · cases b
      · simp only [doStep2, h, o, trace_normal]
        exact ⟨processStep2_logs_trunc msgs, h4⟩
      · simp only [doStep2, h, o]
        exact doStep3_trunc cl _ (processStep2_logs_trunc msgs) h4

theorem run_cycle_trunc (cl : Client) :
    AllTrunc 200 (run_cycle cl).step2_impl_logs
    ∧ AllTrunc 150 (run_cycle cl).step4_update_logs := by
  obtain ⟨_, _, _, _, fl2, fl4, _⟩ := run_cycle_fields cl
  rw [fl2, fl4]
  rcases h1 : cl.step1 with d | msgs
  · have hb : run_cycle_body cl = BodyResult.raised d defaultTrace := by
      simp [run_cycle_body, h1]
    rw [hb, trace_raised]
    exact ⟨AllTrunc_nil 200, AllTrunc_nil 150⟩
  · by_cases hsel : (processStep1 msgs none).task_selected = true
    · have hb : run_cycle_body cl = doStep2 cl (mkStep1Trace (processStep1 msgs none)) := by
        simp [run_cycle_body, h1, hsel]
      rw [hb]
      exact doStep2_trunc cl _ (AllTrunc_nil 200) (AllTrunc_nil 150)
    · replace hsel : (processStep1 msgs none).task_selected = false := by
        simpa using hsel
      have hb : run_cycle_body cl
          = BodyResult.normal false (mkStep1Trace (processStep1 msgs none)) := by
        simp [run_cycle_body, h1, hsel]
      rw [hb, trace_normal]
      exact ⟨AllTrunc_nil 200, AllTrunc_nil 150⟩

/-- A 210-character assistant reply text for Step 1. -/
def longA : String := String.mk (List.replicate 210 'a')

/-- A client whose Step 1 stream carries a 210-character text block before
its successful terminal reply. -/
def overlongStep1Client : Client :=
  { okClient with step1 := .replies [.assistant [.text longA], .result false "ok"] }

/-- Counterexample to C8 as stated: the Step 1 response text is logged in
full (main.py line 415) with no truncation — here a 227-character log line
whose tail is not an ellipsis — so it is not the case that every assistant
reply text logged during a cycle is capped at 150-200 characters with an
ellipsis appended. -/
theorem C8_counterexample_step1_log_uncapped :
    (run_cycle overlongStep1Client).step1_response_logs
      = ["Step 1 Response: " ++ longA]
    ∧ ("Step 1 Response: " ++ longA).length = 227
    ∧ ("Step 1 Response: " ++ longA).drop 224 ≠ "..." :=
  ⟨by decide, by decide, by decide⟩

/-- C8 amended: the truncation policy holds for the extracted texts that
the source does truncate — every Step 2 implementation summary is capped at
200 characters and every Step 4 update summary at 150 characters, with an
ellipsis appended past the cap — while Step 1 response texts (and the
selected-task and commit-message values) are logged without truncation. -/
theorem C8_amended_truncation (cl : Client) :
    (∀ s ∈ (run_cycle cl).step2_impl_logs,
      s.length ≤ 203 ∧ (200 < s.length → s.drop 200 = "..."))
    ∧ (∀ s ∈ (run_cycle cl).step4_update_logs,
      s.length ≤ 153 ∧ (150 < s.length → s.drop 150 = "...")) := by
  obtain ⟨h2, h4⟩ := run_cycle_trunc cl
  constructor
  · intro s hs
    obtain ⟨t, rfl⟩ := h2 s hs
    exact truncTo_spec 200 t
  · intro s hs
    obtain ⟨t, rfl⟩ := h4 s hs
    exact truncTo_spec 150 t

/-- A client whose Step 2 stream carries a short implementation note. -/
def shortImplClient : Client :=
  { okClient with
    step2 := .replies [.assistant [.text "implemented the feature"], .result false "ok"] }

/-- Witness for the amended C8: a concrete logged Step 2 summary obeys the
cap. -/
theorem C8_amended_truncation_witness :
    ("implemented the feature" : String).length ≤ 203
    ∧ (200 < ("implemented the feature" : String).length →
        ("implemented the feature" : String).drop 200 = "...") :=
  (C8_amended_truncation shortImplClient).1 "implemented the feature" (by decide)
